import Mathlib

/-!
Verification development for the Twilio/Gemini voice relay.

The Python sources are shallowly embedded: byte strings become List Nat
(each element a byte value), 16-bit PCM samples become Int, and the
stateful service code becomes explicit state passing over structures that
mirror the Python objects.  The stdlib collaborators the code calls
(audioop.ulaw2lin, audioop.ratecv, base64, range) are embedded by their
exact observable semantics, sample for sample.
-/

set_option maxRecDepth 16000

namespace CallerAgent

/-! ## Config (src/config.py) -/

/-- Config.TWILIO_SAMPLE_RATE: Twilio uses 8kHz. -/
def TWILIO_SAMPLE_RATE : Nat := 8000

/-- Config.GEMINI_SAMPLE_RATE: Gemini expects 16kHz. -/
def GEMINI_SAMPLE_RATE : Nat := 16000

/-- Config.PCM_SAMPLE_WIDTH: 16-bit PCM, two bytes per sample. -/
def PCM_SAMPLE_WIDTH : Nat := 2

/-! ## Byte-level helpers shared by the audioop embedding -/

/-- Serialization of one signed 16-bit sample to two little-endian bytes,
as the audioop C module stores width-2 samples. -/
def int16ToLEBytes (s : Int) : List Nat :=
  let u := (s % 65536).toNat
  [u % 256, u / 256]

/-- Parse a byte string as little-endian signed 16-bit frames (width 2,
mono), as the audioop C module reads width-2 samples.  A trailing odd
byte is ignored (audioop rejects odd lengths; our inputs are even). -/
def parseLE16 : List Nat → List Int
  | b0 :: b1 :: rest =>
    (let u := b1 % 256 * 256 + b0 % 256
     (if u ≥ 32768 then (u : Int) - 65536 else (u : Int))) :: parseLE16 rest
  | _ => []

/-! ## audioop.ulaw2lin (CPython st_ulaw2linear16) -/

/-- Decode one mu-law byte to a signed 16-bit sample, exactly the
CPython audioop st_ulaw2linear16 routine: complement the byte, rebuild
mantissa (low 4 bits, shifted left 3, plus bias 0x84), shift by the
3-bit exponent, and apply the sign bit. -/
def st_ulaw2linear16 (b : Nat) : Int :=
  let u := 255 - b % 256
  let t := (u % 16 * 8 + 132) * 2 ^ (u / 16 % 8)
  if u ≥ 128 then (132 : Int) - t else (t : Int) - 132

/-- audioop.ulaw2lin with width 2: each mu-law byte becomes one
little-endian 16-bit sample, so the output has twice as many bytes. -/
def ulaw2lin (mulaw_data : List Nat) : List Nat :=
  (mulaw_data.map st_ulaw2linear16).flatMap int16ToLEBytes

/-! ## audioop.ratecv (mono, width 2, default filter weights 1/0,
state None).  The C loop keeps an accumulator d (starting at -outrate),
reads a frame (d grows by outrate) and, while d is nonnegative, emits the
linear interpolation (prev*d + cur*(outrate-d)) / outrate of the two
newest frames at 32-bit scale, truncating toward zero as the C double to
int cast does, then shifting arithmetically right by 16. -/

/-- Emit loop of ratecv: while 0 ≤ d, output one interpolated frame and
decrease d by inrate.  Fuel bounds the loop; d.toNat + 1 suffices since
inrate is at least 1. -/
def ratecvEmit (inrate outrate prev cur : Int) : Nat → Int → List Int × Int
  | 0, d => ([], d)
  | fuel + 1, d =>
    if 0 ≤ d then
      let out := Int.fdiv (Int.tdiv (prev * d + cur * (outrate - d)) outrate) 65536
      let rec1 := ratecvEmit inrate outrate prev cur fuel (d - inrate)
      (out :: rec1.1, rec1.2)
    else ([], d)

/-- Frame loop of ratecv: for each input frame, the previous frame is
remembered, the accumulator grows by outrate, and the emit loop runs.
Frames are carried at 32-bit scale (shifted left 16). -/
def ratecvFrames (inrate outrate : Int) : Int → Int → List Int → List Int
  | _, _, [] => []
  | d, cur, f :: rest =>
    let prev := cur
    let curN := f * 65536
    let dN := d + outrate
    let emitted := ratecvEmit inrate outrate prev curN (dN.toNat + 1) dN
    emitted.1 ++ ratecvFrames inrate outrate emitted.2 curN rest

/-! ## AudioConverter (src/audio_converter.py) -/

/-- AudioConverter.mulaw_to_pcm: audioop.ulaw2lin(mulaw_data, 2). -/
def mulaw_to_pcm (mulaw_data : List Nat) : List Nat :=
  ulaw2lin mulaw_data

/-- AudioConverter.resample_audio: identity when the rates agree,
otherwise audioop.ratecv(audio_data, 2, 1, from_rate, to_rate, None)
with rates reduced by their gcd and the accumulator seeded at -outrate
with both remembered frames zero (the None state). -/
def resample_audio (audio_data : List Nat) (from_rate to_rate : Nat) : List Nat :=
  if from_rate = to_rate then audio_data
  else
    let g := Nat.gcd from_rate to_rate
    let inrate := from_rate / g
    let outrate := to_rate / g
    (ratecvFrames inrate outrate (-(outrate : Int)) 0 (parseLE16 audio_data)).flatMap
      int16ToLEBytes

/-! ## base64 (collaborator of decode_twilio_audio / encode_for_twilio),
embedded on canonical padded inputs. -/

/-- Value of one base64 alphabet character, none for anything else. -/
def b64val (c : Char) : Option Nat :=
  if 'A' ≤ c ∧ c ≤ 'Z' then some (c.toNat - 65)
  else if 'a' ≤ c ∧ c ≤ 'z' then some (c.toNat - 97 + 26)
  else if '0' ≤ c ∧ c ≤ '9' then some (c.toNat - 48 + 52)
  else if c = '+' then some 62
  else if c = '/' then some 63
  else none

/-- Decode canonical base64 text, four characters at a time; a final
group may end in one or two padding characters. -/
def b64decodeChars : List Char → Option (List Nat)
  | [] => some []
  | c0 :: c1 :: c2 :: c3 :: rest =>
    match b64val c0, b64val c1 with
    | some v0, some v1 =>
      if c2 = '=' ∧ c3 = '=' ∧ rest = [] then
        some [v0 * 4 + v1 / 16]
      else
        match b64val c2 with
        | some v2 =>
          if c3 = '=' ∧ rest = [] then
            some [v0 * 4 + v1 / 16, v1 % 16 * 16 + v2 / 4]
          else
            match b64val c3, b64decodeChars rest with
            | some v3, some bs =>
              some ([v0 * 4 + v1 / 16, v1 % 16 * 16 + v2 / 4, v2 % 4 * 64 + v3] ++ bs)
            | _, _ => none
        | none => none
    | _, _ => none
  | _ => none

/-- base64.b64decode on a canonical payload string. -/
def b64decode (payload : String) : Option (List Nat) :=
  b64decodeChars payload.data

/-- The base64 alphabet in order. -/
def b64chars : List Char :=
  "ABCDEFGHIJKLMNOPQRSTUVWXYZabcdefghijklmnopqrstuvwxyz0123456789+/".data

/-- Character for a 6-bit value. -/
def b64charOf (n : Nat) : Char := b64chars.getD n 'A'

/-- Encode bytes as canonical base64 characters, three bytes at a time,
padding the final group with one or two padding characters. -/
def b64encodeBytes : List Nat → List Char
  | [] => []
  | [b0] => [b64charOf (b0 / 4), b64charOf (b0 % 4 * 16), '=', '=']
  | [b0, b1] =>
    [b64charOf (b0 / 4), b64charOf (b0 % 4 * 16 + b1 / 16), b64charOf (b1 % 16 * 4), '=']
  | b0 :: b1 :: b2 :: rest =>
    b64charOf (b0 / 4) :: b64charOf (b0 % 4 * 16 + b1 / 16) ::
      b64charOf (b1 % 16 * 4 + b2 / 64) :: b64charOf (b2 % 64) :: b64encodeBytes rest

/-- base64.b64encode of a byte string, as a Lean String. -/
def base64_of (bs : List Nat) : String := String.mk (b64encodeBytes bs)

/-- AudioConverter.decode_twilio_audio: base64-decode, then mu-law to
PCM, then resample 8000 to 16000.  Malformed base64 raises in Python,
embedded as none. -/
def decode_twilio_audio (base64_payload : String) : Option (List Nat) :=
  match b64decode base64_payload with
  | none => none
  | some mulaw_data =>
    let pcm_8khz := mulaw_to_pcm mulaw_data
    some (resample_audio pcm_8khz TWILIO_SAMPLE_RATE GEMINI_SAMPLE_RATE)

/-! ## Python built-in range (collaborator of chunk_audio).  For step
positive, range(start, stop, step) enumerates start + step*j for
j < ceil((stop-start)/step); for step negative it enumerates
start + step*j for j < ceil((start-stop)/(-step)); both clamp at zero
length.  chunk_audio only calls it with start = 0 and stop = len. -/

/-- Number of elements of range(start, stop, step) for nonzero step. -/
def pyRangeLen (start stop step : Int) : Nat :=
  if 0 < step then ((stop - start).toNat + step.toNat - 1) / step.toNat
  else ((start - stop).toNat + (-step).toNat - 1) / (-step).toNat

/-- The elements of range(start, stop, step) for nonzero step. -/
def pyRange (start stop step : Int) : List Int :=
  (List.range (pyRangeLen start stop step)).map fun (j : Nat) => start + step * (j : Int)

/-- AudioConverter.chunk_audio: for i in range(0, len(audio_data),
chunk_size) take the slice audio_data[i : i + chunk_size].  A zero
chunk_size raises ValueError from range (embedded as the error case); a
negative chunk_size makes the range empty, so the result is an empty
list of chunks, not an error. -/
def chunk_audio (audio_data : List Nat) (chunk_size : Int) :
    Except String (List (List Nat)) :=
  if chunk_size = 0 then Except.error "range() arg 3 must not be zero"
  else Except.ok ((pyRange 0 audio_data.length chunk_size).map
    fun i => (audio_data.drop i.toNat).take chunk_size.toNat)

/-- The chunk list chunk_audio builds for a positive chunk size, stated
with the size as a Nat; proof-side view of the ok payload. -/
def chunkPieces (b : List Nat) (k : Nat) : List (List Nat) :=
  (pyRange 0 b.length k).map fun i => (b.drop i.toNat).take k

/-! ## twilio_voice_service.py: data model -/

/-- Fixed reconnect backoff, module constant of twilio_voice_service.py
(1.5 seconds). -/
def RECONNECT_DELAY_SECONDS : ℚ := 3 / 2

/-- The system instruction string baked into every connection config. -/
def SYSTEM_INSTRUCTION : String :=
  "You are a helpful voice assistant powered by Twilio and Google Gemini.\n\nYour role:\n- Respond naturally to user questions\n- Keep responses brief (2-3 sentences)\n- Be warm and conversational\n\nCommunication style:\n- Clear and simple language\n- One topic at a time"

/-- Normalized events the run loop puts on a session queue, the tagged
shapes listed in the receive docstring. -/
inductive NEvent
  | audio_chunk (data : List Nat)
  | turn_complete
  | input_transcription (text : String)
  | output_transcription (text : String)
  | error (msg : String)
deriving DecidableEq

/-- TwilioVoiceSession: event queue, nullable backend connection handle,
closed flag, with the constructor defaults of the Python class. -/
structure TwilioVoiceSession where
  queue : List NEvent := []
  session : Option Unit := none
  closed : Bool := false
deriving DecidableEq

/-- Outcome tag describing which branch of send_audio ran. -/
inductive SendOutcome
  | sent
  | droppedNoSession
  | droppedSendFailed
deriving DecidableEq

/-- TwilioVoiceSession.send_audio: raise if closed; silently drop when
no connection; forward otherwise, and when the forward itself raises,
drop the chunk and null the handle without re-raising.  Whether the
underlying send raises is an environment fact, passed as sendFails. -/
def send_audio (s : TwilioVoiceSession) (sendFails : Bool) :
    Except String (TwilioVoiceSession × SendOutcome) :=
  if s.closed then Except.error "Session is closed"
  else
    match s.session with
    | none => Except.ok (s, SendOutcome.droppedNoSession)
    | some _ =>
      if sendFails then
        Except.ok ({ s with session := none }, SendOutcome.droppedSendFailed)
      else Except.ok (s, SendOutcome.sent)

/-- TwilioVoiceSession.receive: while not closed, await one queued event
(with a 1.0s timeout that merely re-checks the flag) and yield it.  The
fuel bounds how many loop iterations are observed; the function returns
the yielded events and the session as the iterator leaves it. -/
def receiveYields : Nat → TwilioVoiceSession → List NEvent × TwilioVoiceSession
  | 0, s => ([], s)
  | fuel + 1, s =>
    if s.closed then ([], s)
    else
      match s.queue with
      | [] => receiveYields fuel s
      | e :: rest =>
        let r := receiveYields fuel { s with queue := rest }
        (e :: r.1, r.2)

/-! ## Backend messages and their normalization in the receive loop -/

/-- Resumption-update payload of a backend message. -/
structure SessionResumptionUpdate where
  resumable : Bool
  new_handle : Option String
deriving DecidableEq

/-- One part of a model turn; inline_data is its audio payload when
present (none embeds a part whose inline_data or data is missing). -/
structure TurnPart where
  inline_data : Option (List Nat)
deriving DecidableEq

/-- Server content of a backend message: optional model turn parts,
turn-complete marker, and transcription texts (none when the field is
absent). -/
structure ServerContent where
  model_turn : Option (List TurnPart)
  turn_complete : Bool
  input_transcription : Option String
  output_transcription : Option String
deriving DecidableEq

/-- One message from session.receive(): optional resumption update,
optional go_away warning (only logged), optional server content. -/
structure LiveServerMessage where
  session_resumption_update : Option SessionResumptionUpdate
  go_away : Option Nat
  server_content : Option ServerContent
deriving DecidableEq

/-- Python truthiness of an optional string: present and nonempty. -/
def truthyStr : Option String → Bool
  | some s => !(s == "")
  | none => false

/-- Audio-chunk events for the parts of a model turn that carry a
nonempty inline data payload, in part order. -/
def audioEvents (parts : List TurnPart) : List NEvent :=
  parts.filterMap fun p =>
    match p.inline_data with
    | some d => if d.isEmpty then none else some (NEvent.audio_chunk d)
    | none => none

/-- Handle update on a resumption-update message: only a resumable
update with a truthy new_handle overwrites the held handle. -/
def updateHandle (h : Option String) (u : SessionResumptionUpdate) : Option String :=
  if u.resumable = true ∧ truthyStr u.new_handle = true then u.new_handle else h

/-- The token a message carries when its resumption update passes the
resumable-and-truthy-handle guard, none otherwise. -/
def validToken (r : LiveServerMessage) : Option String :=
  match r.session_resumption_update with
  | some u =>
    if u.resumable = true ∧ truthyStr u.new_handle = true then u.new_handle else none
  | none => none

/-- Body of the async-for over session.receive() for one message:
update the resumption handle, log go_away, and append the normalized
events of the server content to the queue in the order the code checks
them (audio parts, turn_complete, input transcription, output
transcription). -/
def processResponse (h : Option String) (q : List NEvent) (r : LiveServerMessage) :
    Option String × List NEvent :=
  let h1 := match r.session_resumption_update with
    | some u => updateHandle h u
    | none => h
  let q1 := match r.server_content with
    | some sc =>
      let qa := match sc.model_turn with
        | some parts => q ++ audioEvents parts
        | none => q
      let qb := if sc.turn_complete then qa ++ [NEvent.turn_complete] else qa
      let qc := match sc.input_transcription with
        | some t => if t = "" then qb else qb ++ [NEvent.input_transcription t]
        | none => qb
      match sc.output_transcription with
      | some t => if t = "" then qc else qc ++ [NEvent.output_transcription t]
      | none => qc
    | none => q
  (h1, q1)

/-- The whole receive loop over a list of messages. -/
def processResponses (h : Option String) (q : List NEvent)
    (msgs : List LiveServerMessage) : Option String × List NEvent :=
  msgs.foldl (fun acc r => processResponse acc.1 acc.2 r) (h, q)

/-! ## The connection config built at every CONNECTING step -/

/-- The LiveConnectConfig the run loop builds before each connect: fixed
voice, system instruction, compression and transcription settings, plus
the currently held resumption handle. -/
structure LiveConnectConfig where
  response_modalities : List String
  voice_name : String
  system_instruction : String
  context_window_compression : Bool
  session_resumption_handle : Option String
  input_audio_transcription : Bool
  output_audio_transcription : Bool
deriving DecidableEq

/-- The config literal of the CONNECTING step of _run. -/
def makeLiveConnectConfig (resumption_handle : Option String) : LiveConnectConfig :=
  { response_modalities := ["AUDIO"]
    voice_name := "Puck"
    system_instruction := SYSTEM_INSTRUCTION
    context_window_compression := true
    session_resumption_handle := resumption_handle
    input_audio_transcription := true
    output_audio_transcription := true }

/-! ## The run loop (TwilioVoiceService._run) -/

/-- Loop-local state of one _run task: its live session, the held
resumption handle, whether the ready event has been set, and whether the
task is still registered in the service's task map (read by the generic
exception branch). -/
structure RunState where
  live_session : TwilioVoiceSession := {}
  resumption_handle : Option String := none
  ready_event_set : Bool := false
  task_registered : Bool := true
deriving DecidableEq

/-- How one iteration of the while-True body ends: cancelled during the
connect attempt, cancelled during the receive loop after processing some
messages, an exception during connect, an exception during receive after
processing some messages, or a clean close of the backend connection
after processing all its messages. -/
inductive IterOutcome
  | cancelledAtConnect
  | cancelledInReceive (processed : List LiveServerMessage)
  | connectError
  | receiveError (processed : List LiveServerMessage)
  | cleanClose (processed : List LiveServerMessage)
deriving DecidableEq

/-- Entering the connected block: the session handle is stored on the
live session and the ready event is set if it was not yet. -/
def connectOk (st : RunState) : RunState :=
  { st with live_session := { st.live_session with session := some () }
            ready_event_set := true }

/-- Effect of the receive loop on the run state for the processed
messages. -/
def applyMessages (st : RunState) (msgs : List LiveServerMessage) : RunState :=
  let hq := processResponses st.resumption_handle st.live_session.queue msgs
  { st with resumption_handle := hq.1
            live_session := { st.live_session with queue := hq.2 } }

/-- The config the next CONNECTING step would supply. -/
def nextConnectConfig (st : RunState) : LiveConnectConfig :=
  makeLiveConnectConfig st.resumption_handle

/-- One iteration of the while-True body of _run.  The returned option
is the sleep performed at the bottom of the loop before the next
iteration: some RECONNECT_DELAY_SECONDS when control falls through to
the asyncio.sleep call, none when the iteration breaks out of the loop
(CancelledError, or any other exception when the task is no longer
registered). -/
def runIteration (st : RunState) (out : IterOutcome) : RunState × Option ℚ :=
  match out with
  | IterOutcome.cancelledAtConnect => (st, none)
  | IterOutcome.cancelledInReceive processed =>
    (applyMessages (connectOk st) processed, none)
  | IterOutcome.connectError =>
    if st.task_registered then
      ({ st with live_session := { st.live_session with session := none } },
       some RECONNECT_DELAY_SECONDS)
    else (st, none)
  | IterOutcome.receiveError processed =>
    let st1 := applyMessages (connectOk st) processed
    if st.task_registered then
      ({ st1 with live_session := { st1.live_session with session := none } },
       some RECONNECT_DELAY_SECONDS)
    else (st1, none)
  | IterOutcome.cleanClose processed =>
    let st1 := applyMessages (connectOk st) processed
    ({ st1 with live_session := { st1.live_session with session := none } },
     some RECONNECT_DELAY_SECONDS)

/-- The whole _run loop over a list of iteration outcomes: iterate until
an iteration breaks, then perform the final closed write after the loop.
Returns the final state and whether the loop has exited (false means the
outcome list ran out with the loop still spinning). -/
def runLoop : RunState → List IterOutcome → RunState × Bool
  | st, [] => (st, false)
  | st, out :: rest =>
    match runIteration st out with
    | (st1, none) =>
      ({ st1 with live_session := { st1.live_session with closed := true } }, true)
    | (st1, some _) => runLoop st1 rest

/-! ## The session registry (TwilioVoiceService) -/

/-- Which source line performed a write of the closed flag. -/
inductive ClosedWriter
  | runExit
  | cleanup
deriving DecidableEq

/-- Handle to a spawned _run task as the registry sees it. -/
structure TaskInfo where
  done : Bool := false
deriving DecidableEq

/-- Lookup in an association list modelling a Python dict. -/
def lookupA {β : Type} : List (String × β) → String → Option β
  | [], _ => none
  | (k1, v) :: rest, k => if k1 = k then some v else lookupA rest k

/-- Removal of every binding of a key, modelling dict.pop (dict keys are
unique, so at most one binding is ever present). -/
def eraseA {β : Type} : List (String × β) → String → List (String × β)
  | [], _ => []
  | (k1, v) :: rest, k => if k1 = k then eraseA rest k else (k1, v) :: eraseA rest k

/-- Overwriting insertion, modelling dict assignment: the new binding
shadows and replaces any previous binding of the key. -/
def insertA {β : Type} (l : List (String × β)) (k : String) (v : β) :
    List (String × β) :=
  (k, v) :: eraseA l k

/-- The three registries of TwilioVoiceService, keyed by stream sid. -/
structure ServiceState where
  active_sessions : List (String × TwilioVoiceSession) := []
  ready_events : List (String × Unit) := []
  run_tasks : List (String × TaskInfo) := []
deriving DecidableEq

/-- Result of _cleanup: the state afterwards, the session object that
was popped (as _cleanup leaves it), and the writes of a closed flag the
call performed, in order. -/
structure CleanupResult where
  st : ServiceState
  poppedSession : Option TwilioVoiceSession
  writes : List ClosedWriter

/-- TwilioVoiceService._cleanup: pop the task handle and, when the task
exists and is not done, cancel and await it — awaiting lets the
cancelled run loop break and perform its closed write on the session
registered under this sid; then pop the session and set its closed flag;
finally pop the ready event. -/
def cleanup (st : ServiceState) (sid : String) : CleanupResult :=
  let task := lookupA st.run_tasks sid
  let st1 : ServiceState := { st with run_tasks := eraseA st.run_tasks sid }
  let runWrite : Bool := match task with
    | some t => !t.done
    | none => false
  let st2 : ServiceState :=
    if runWrite then
      { st1 with active_sessions :=
          match lookupA st1.active_sessions sid with
          | some s => insertA st1.active_sessions sid { s with closed := true }
          | none => st1.active_sessions }
    else st1
  let writes1 : List ClosedWriter := if runWrite then [ClosedWriter.runExit] else []
  let session := lookupA st2.active_sessions sid
  let st3 : ServiceState := { st2 with active_sessions := eraseA st2.active_sessions sid }
  let popped : Option TwilioVoiceSession × List ClosedWriter :=
    match session with
    | some s => (some { s with closed := true }, [ClosedWriter.cleanup])
    | none => (none, [])
  let st4 : ServiceState := { st3 with ready_events := eraseA st3.ready_events sid }
  { st := st4, poppedSession := popped.1, writes := writes1 ++ popped.2 }

/-- TwilioVoiceService.end_session: log and clean up. -/
def end_session (st : ServiceState) (sid : String) : CleanupResult :=
  cleanup st sid

/-- Result of get_or_create_session: final state, the returned session
or the raised error, and the teardown performed when the readiness wait
timed out. -/
structure GoCOut where
  st : ServiceState
  result : Except String TwilioVoiceSession
  timeoutTeardown : Option CleanupResult

/-- The creation tail of get_or_create_session: register a ready event
and spawn the _run task; while the caller awaits the ready event the
spawned task runs its first statements and registers a fresh session
under the sid; then either the wait times out (end_session tears the
partial session down and a RuntimeError is raised) or the session
registered under the sid is returned.  Whether the ten-second readiness
wait expires is an environment fact, passed as timedOut. -/
def createAndWait (st : ServiceState) (sid : String) (timedOut : Bool) : GoCOut :=
  let st1 : ServiceState := { st with ready_events := insertA st.ready_events sid () }
  let st2 : ServiceState := { st1 with run_tasks := insertA st1.run_tasks sid {} }
  let st3 : ServiceState :=
    { st2 with active_sessions := insertA st2.active_sessions sid {} }
  if timedOut then
    let c := end_session st3 sid
    { st := c.st
      result := Except.error "Gemini Live session initialization timed out"
      timeoutTeardown := some c }
  else
    match lookupA st3.active_sessions sid with
    | some s => { st := st3, result := Except.ok s, timeoutTeardown := none }
    | none => { st := st3, result := Except.error "KeyError", timeoutTeardown := none }

/-- TwilioVoiceService.get_or_create_session: reuse a registered
non-closed session unchanged; a registered closed session is cleaned up
first; otherwise create and wait for readiness. -/
def get_or_create_session (st : ServiceState) (sid : String) (timedOut : Bool) :
    GoCOut :=
  match lookupA st.active_sessions sid with
  | some s =>
    if s.closed = false then { st := st, result := Except.ok s, timeoutTeardown := none }
    else createAndWait (cleanup st sid).st sid timedOut
  | none => createAndWait st sid timedOut

/-! ## Cooperative interleaving of two concurrent get_or_create_session
calls for the same sid.

Under asyncio, the synchronous prefix of get_or_create_session (the
registry check, the ready-event creation and the create_task call up to
the await of the ready event) runs atomically; the spawned _run task
only starts at a later scheduler slot, and its own first statements (the
creation and registration of the fresh TwilioVoiceSession) run in that
later slot.  The model below makes each of these atomic sections one
scheduler step and lets an explicit schedule pick who runs. -/

/-- One caller of get_or_create_session for the contended sid.  pc 0:
has not run its synchronous prefix; pc 1: awaiting the ready event it
created; pc 2: returned.  ret is the session object id it returned. -/
structure RaceCreator where
  pc : Nat := 0
  waitingOn : Option Nat := none
  ret : Option Nat := none
deriving DecidableEq

/-- One spawned _run task: its object id (also used as the object id of
the session it creates), the ready event it was handed, and how far it
has run (registered its session; connected and set its event). -/
structure RaceTask where
  tid : Nat
  evt : Nat
  registered : Bool := false
  connected : Bool := false
deriving DecidableEq

/-- Global state of the race: the three registry entries for the
contended sid, the set events, every _run task ever spawned in creation
order, the two callers, and an object-id counter. -/
structure RaceState where
  active : Option Nat := none
  tasksReg : Option Nat := none
  readyReg : Option Nat := none
  eventsSet : List Nat := []
  spawned : List RaceTask := []
  crA : RaceCreator := {}
  crB : RaceCreator := {}
  nextId : Nat := 0
deriving DecidableEq

/-- Who runs in one scheduler slot. -/
inductive RaceAgent
  | A
  | B
  | task (tid : Nat)
deriving DecidableEq

/-- One scheduler slot of a caller.  At pc 0 it runs the synchronous
prefix of get_or_create_session: if a session is registered (sessions in
this model are never closed) it returns that very object; otherwise it
creates a fresh ready event, overwrites the ready-event registry entry,
spawns a fresh _run task, overwrites the task registry entry, and starts
awaiting its event.  At pc 1 it completes when its event is set and
returns the session currently registered (the code returns
self.active_sessions of the sid after the wait). -/
def creatorStep (st : RaceState) (c : RaceCreator) : RaceState × RaceCreator :=
  match c.pc with
  | 0 =>
    match st.active with
    | some s => (st, { c with pc := 2, ret := some s })
    | none =>
      let evt := st.nextId
      let tid := st.nextId + 1
      let t : RaceTask := { tid := tid, evt := evt }
      ({ st with readyReg := some evt, tasksReg := some tid,
                 spawned := st.spawned ++ [t], nextId := st.nextId + 2 },
       { c with pc := 1, waitingOn := some evt })
  | 1 =>
    match c.waitingOn with
    | some e =>
      if e ∈ st.eventsSet then (st, { c with pc := 2, ret := st.active })
      else (st, c)
    | none => (st, c)
  | _ => (st, c)

/-- One scheduler slot of a spawned _run task: its first slot runs the
first statements of _run (create a session and register it, overwriting
any previous registration); its next slot completes the first connect
and sets the ready event it was handed. -/
def raceTaskStep (st : RaceState) (tid : Nat) : RaceState :=
  match st.spawned.find? (fun t => t.tid == tid) with
  | none => st
  | some t =>
    if !t.registered then
      { st with active := some tid,
                spawned := st.spawned.map fun u =>
                  if u.tid == tid then { u with registered := true } else u }
    else if !t.connected then
      { st with eventsSet := st.eventsSet ++ [t.evt],
                spawned := st.spawned.map fun u =>
                  if u.tid == tid then { u with connected := true } else u }
    else st

/-- Dispatch one scheduler slot. -/
def raceStep (st : RaceState) : RaceAgent → RaceState
  | RaceAgent.A => let r := creatorStep st st.crA; { r.1 with crA := r.2 }
  | RaceAgent.B => let r := creatorStep st st.crB; { r.1 with crB := r.2 }
  | RaceAgent.task tid => raceTaskStep st tid

/-- Run a schedule from the empty registry. -/
def runSchedule (sched : List RaceAgent) : RaceState :=
  sched.foldl raceStep {}

/-- Schedule in which caller B's synchronous check runs before the first
spawned task has had a slot: A runs its prefix, B runs its prefix, then
the two spawned tasks register and connect, then both callers resume. -/
def raceInterleavedSchedule : List RaceAgent :=
  [RaceAgent.A, RaceAgent.B, RaceAgent.task 1, RaceAgent.task 3,
   RaceAgent.task 1, RaceAgent.task 3, RaceAgent.A, RaceAgent.B]

/-- Schedule in which the first spawned task registers its session
before caller B's check: A runs its prefix, the spawned task registers,
B runs its check (and reuses), the task connects, A resumes. -/
def raceSequencedSchedule : List RaceAgent :=
  [RaceAgent.A, RaceAgent.task 1, RaceAgent.B, RaceAgent.task 1, RaceAgent.A]

/-- Schedule in which both prefixes run first, A's task registers and
connects and A resumes before B's task has registered, then B's task
registers and connects and B resumes: the two callers observe different
registry entries. -/
def raceDivergentSchedule : List RaceAgent :=
  [RaceAgent.A, RaceAgent.B, RaceAgent.task 1, RaceAgent.task 1,
   RaceAgent.A, RaceAgent.task 3, RaceAgent.task 3, RaceAgent.B]

/-! ## Theorems -/

/-- C1 counterexample: after a clean close of the backend connection the
loop does not reconnect immediately; the asyncio.sleep at the bottom of
the while body runs on this path too, so the next CONNECTING attempt is
delayed by the fixed 1.5-second backoff, contradicting the claim that a
clean close re-enters CONNECTING with no delay. -/
theorem clean_close_backoff_counterexample :
    (runIteration {} (IterOutcome.cleanClose [])).2 = some RECONNECT_DELAY_SECONDS ∧
    RECONNECT_DELAY_SECONDS ≠ 0 ∧
    (runIteration {} (IterOutcome.cleanClose [])).2 ≠ none := by
  refine ⟨rfl, by norm_num [RECONNECT_DELAY_SECONDS], ?_⟩
  show some RECONNECT_DELAY_SECONDS ≠ none
  simp

/-- C1 (amended): the fixed 1.5-second backoff sleep runs before the
next CONNECTING attempt both after a clean connection close and on the
error path (when the task is still registered); only cancellation, and
an error observed after the task handle was removed, break out of the
loop without sleeping. -/
theorem run_backoff_spec (st : RunState) (p : List LiveServerMessage) :
    (runIteration st (IterOutcome.cleanClose p)).2 = some RECONNECT_DELAY_SECONDS ∧
    (runIteration st IterOutcome.cancelledAtConnect).2 = none ∧
    (runIteration st (IterOutcome.cancelledInReceive p)).2 = none ∧
    (runIteration st IterOutcome.connectError).2 =
      (if st.task_registered then some RECONNECT_DELAY_SECONDS else none) ∧
    (runIteration st (IterOutcome.receiveError p)).2 =
      (if st.task_registered then some RECONNECT_DELAY_SECONDS else none) := by
  refine ⟨rfl, rfl, rfl, ?_, ?_⟩ <;>
    cases h : st.task_registered <;> simp [runIteration, h]

/-- C5: send_audio fails with the closed-session error when the session
is closed; returns normally dropping the chunk when there is no active
connection; and when the forward itself fails it returns normally,
dropping the chunk and clearing the connection handle. -/
theorem send_audio_spec (s : TwilioVoiceSession) (sendFails : Bool) :
    (s.closed = true → send_audio s sendFails = Except.error "Session is closed") ∧
    (s.closed = false → s.session = none →
      send_audio s sendFails = Except.ok (s, SendOutcome.droppedNoSession)) ∧
    (s.closed = false → s.session = some () → sendFails = true →
      send_audio s sendFails =
        Except.ok ({ s with session := none }, SendOutcome.droppedSendFailed)) ∧
    (s.closed = false → s.session = some () → sendFails = false →
      send_audio s sendFails = Except.ok (s, SendOutcome.sent)) := by
  refine ⟨?_, ?_, ?_, ?_⟩
  · intro h1; simp [send_audio, h1]
  · intro h1 h2; simp [send_audio, h1, h2]
  · intro h1 h2 h3; simp [send_audio, h1, h2, h3]
  · intro h1 h2 h3; simp [send_audio, h1, h2, h3]

/-- Witness for C5: the three branches at concrete sessions. -/
theorem send_audio_spec_witness :
    send_audio { queue := [], session := none, closed := true } false =
      Except.error "Session is closed" ∧
    send_audio { queue := [], session := none, closed := false } false =
      Except.ok ({ queue := [], session := none, closed := false },
        SendOutcome.droppedNoSession) ∧
    send_audio { queue := [], session := some (), closed := false } true =
      Except.ok ({ queue := [], session := none, closed := false },
        SendOutcome.droppedSendFailed) :=
  ⟨(send_audio_spec _ false).1 rfl,
   (send_audio_spec _ false).2.1 rfl rfl,
   (send_audio_spec _ true).2.2.1 rfl rfl rfl⟩

/-- C8 counterexample: a negative chunk size does not raise; the range
is empty, so chunk_audio returns an empty chunk list normally,
contradicting the claim that every nonpositive size is an error. -/
theorem chunk_audio_nonpositive_counterexample :
    (-1 : Int) ≤ 0 ∧ chunk_audio (List.replicate 1000 0) (-1) = Except.ok [] :=
  ⟨by decide, rfl⟩

/-- C8 (amended): chunk size zero fails with the range step error, while
a strictly negative chunk size returns an empty list of chunks normally
(silently dropping the whole input). -/
theorem chunk_audio_nonpositive_spec (b : List Nat) (size : Int) (_h : size ≤ 0) :
    (size = 0 → chunk_audio b size = Except.error "range() arg 3 must not be zero") ∧
    (size < 0 → chunk_audio b size = Except.ok []) := by
  constructor
  · intro h0; simp [chunk_audio, h0]
  · intro hneg
    have hne : ¬ size = 0 := by omega
    have hlen : pyRangeLen 0 b.length size = 0 := by
      unfold pyRangeLen
      rw [if_neg (by omega)]
      have h1 : ((0 : Int) - (b.length : Int)).toNat = 0 := by omega
      rw [h1]
      exact Nat.div_eq_of_lt (by omega)
    simp [chunk_audio, hne, pyRange, hlen]

/-- Witness for C8: a concrete negative size returning an empty list. -/
theorem chunk_audio_nonpositive_spec_witness :
    chunk_audio [0, 1, 2] (-1) = Except.ok [] :=
  (chunk_audio_nonpositive_spec [0, 1, 2] (-1) (by decide)).2 (by decide)

/-- For a positive step, the range length is the ceiling count. -/
theorem pyRangeLen_nat (m k : Nat) (hk : 0 < k) :
    pyRangeLen 0 (m : Int) (k : Int) = (m + k - 1) / k := by
  unfold pyRangeLen
  rw [if_pos (by exact_mod_cast hk)]
  have e1 : ((m : Int) - 0).toNat = m := by omega
  have e2 : ((k : Int)).toNat = k := by omega
  rw [e1, e2]

/-- An empty input yields no chunks. -/
theorem chunkPieces_nil (k : Nat) : chunkPieces [] k = [] := by
  unfold chunkPieces pyRange
  have h : pyRangeLen 0 ((([] : List Nat).length : Int)) (k : Int) = 0 := by
    unfold pyRangeLen
    split
    · next hk =>
      have e1 : (((([] : List Nat).length : Nat) : Int) - 0).toNat = 0 := by simp
      have e2 : ((k : Int)).toNat = k := by omega
      rw [e1, e2]
      exact Nat.div_eq_of_lt (by omega)
    · next hk =>
      have hk0 : k = 0 := by omega
      subst hk0
      simp
  rw [h]
  rfl

/-- Ceiling-count recurrence for one chunk peeled off the front. -/
theorem chunkCount_succ (m k : Nat) (hk : 0 < k) (hm : 0 < m) :
    (m + k - 1) / k = ((m - k) + k - 1) / k + 1 := by
  rcases le_or_lt m k with h | h
  · have e1 : m - k = 0 := by omega
    have e2 : m + k - 1 = (m - 1) + k := by omega
    rw [e1, e2, Nat.add_div_right _ hk]
    have e4 : 0 + k - 1 = k - 1 := by omega
    rw [e4, Nat.div_eq_of_lt (show m - 1 < k by omega),
      Nat.div_eq_of_lt (show k - 1 < k by omega)]
  · have e3 : m + k - 1 = ((m - k) + k - 1) + k := by omega
    rw [e3, Nat.add_div_right _ hk]

/-- Index arithmetic: the Int index a range element denotes. -/
theorem toNat_zero_add_mul (k j : Nat) :
    ((0 : Int) + (k : Int) * (j : Int)).toNat = k * j := by
  rw [zero_add, ← Int.natCast_mul, Int.toNat_natCast]

/-- Peeling one chunk off the front of a nonempty input. -/
theorem chunkPieces_cons (b : List Nat) (k : Nat) (hk : 0 < k) (hb : b ≠ []) :
    chunkPieces b k = b.take k :: chunkPieces (b.drop k) k := by
  have hm : 0 < b.length := List.length_pos.mpr hb
  unfold chunkPieces pyRange
  rw [pyRangeLen_nat _ _ hk, pyRangeLen_nat _ _ hk, List.length_drop,
      chunkCount_succ b.length k hk hm, List.range_succ_eq_map]
  simp only [List.map_cons, List.map_map]
  congr 1
  · apply List.map_congr_left
    intro j _
    simp only [Function.comp_apply]
    have e1 : ((0 : Int) + (k : Int) * ((Nat.succ j : Nat) : Int)).toNat = k + k * j := by
      rw [toNat_zero_add_mul, Nat.mul_succ, Nat.add_comm]
    have e2 : ((0 : Int) + (k : Int) * (j : Int)).toNat = k * j :=
      toNat_zero_add_mul k j
    rw [e1, e2, List.drop_drop]

/-- Concatenating the chunks reconstructs the input (fuel-bounded
induction on the input length). -/
theorem chunkPieces_join_aux (k : Nat) (hk : 0 < k) :
    ∀ (fuel : Nat) (b : List Nat), b.length ≤ fuel → (chunkPieces b k).flatten = b := by
  intro fuel
  induction fuel with
  | zero =>
    intro b hb
    have hbe : b = [] := List.eq_nil_of_length_eq_zero (by omega)
    subst hbe
    simp [chunkPieces_nil]
  | succ n ih =>
    intro b hb
    rcases eq_or_ne b [] with rfl | hne
    · simp [chunkPieces_nil]
    · rw [chunkPieces_cons b k hk hne, List.flatten_cons,
        ih (b.drop k) (by rw [List.length_drop]; omega),
        List.take_append_drop]

/-- Every chunk has length at most the chunk size. -/
theorem chunkPieces_mem_le (b : List Nat) (k : Nat) :
    ∀ c ∈ chunkPieces b k, c.length ≤ k := by
  intro c hc
  unfold chunkPieces at hc
  rw [List.mem_map] at hc
  obtain ⟨i, _, rfl⟩ := hc
  rw [List.length_take]
  omega

/-- Every chunk except possibly the last has length exactly the chunk
size (fuel-bounded induction on the input length). -/
theorem chunkPieces_getD_aux (k : Nat) (hk : 0 < k) :
    ∀ (fuel : Nat) (b : List Nat), b.length ≤ fuel →
      ∀ i, i + 1 < (chunkPieces b k).length →
        ((chunkPieces b k).getD i []).length = k := by
  intro fuel
  induction fuel with
  | zero =>
    intro b hb i hi
    have hbe : b = [] := List.eq_nil_of_length_eq_zero (by omega)
    subst hbe
    rw [chunkPieces_nil] at hi
    simp at hi
  | succ n ih =>
    intro b hb i hi
    rcases eq_or_ne b [] with rfl | hne
    · rw [chunkPieces_nil] at hi
      simp at hi
    · rw [chunkPieces_cons b k hk hne] at hi ⊢
      cases i with
      | zero =>
        have htail : chunkPieces (b.drop k) k ≠ [] := by
          intro hemp
          rw [hemp] at hi
          simp at hi
        have hdrop : b.drop k ≠ [] := by
          intro hdemp
          rw [hdemp, chunkPieces_nil] at htail
          exact htail rfl
        have hklt : k < b.length := by
          have h2 := List.length_pos.mpr hdrop
          rw [List.length_drop] at h2
          omega
        simp only [List.getD_cons_zero, List.length_take]
        omega
      | succ i2 =>
        simp only [List.getD_cons_succ]
        exact ih (b.drop k) (by rw [List.length_drop]; omega) i2
          (by simp only [List.length_cons] at hi; omega)

/-- For a positive size, chunk_audio succeeds with the chunk list. -/
theorem chunk_audio_ok (b : List Nat) (n : Int) (hn : 0 < n) :
    chunk_audio b n = Except.ok (chunkPieces b n.toNat) := by
  unfold chunk_audio chunkPieces
  rw [if_neg (by omega)]
  have h : ((n.toNat : Int)) = n := by omega
  rw [h]

/-- C3: for every byte sequence and positive chunk size, chunk_audio
returns pieces in order whose concatenation is the input exactly; every
piece is at most the chunk size and every piece except possibly the last
has exactly the chunk size; in particular bytes(1000) at size 320 gives
four pieces of lengths 320, 320, 320, 40. -/
theorem chunk_audio_spec (b : List Nat) (n : Int) (hn : 0 < n) :
    ∃ cs, chunk_audio b n = Except.ok cs ∧
      cs.flatten = b ∧
      (∀ c ∈ cs, c.length ≤ n.toNat) ∧
      (∀ i, i + 1 < cs.length → (cs.getD i []).length = n.toNat) ∧
      (chunk_audio (List.replicate 1000 0) 320).map (fun l => l.map List.length) =
        Except.ok [320, 320, 320, 40] := by
  refine ⟨chunkPieces b n.toNat, chunk_audio_ok b n hn, ?_, ?_, ?_, ?_⟩
  · exact chunkPieces_join_aux n.toNat (by omega) b.length b le_rfl
  · exact chunkPieces_mem_le b n.toNat
  · exact chunkPieces_getD_aux n.toNat (by omega) b.length b le_rfl
  · rfl

/-- Witness for C3: the bytes(1000) and size 320 scenario. -/
theorem chunk_audio_spec_witness :
    (0 : Int) < 320 ∧
    (∃ cs, chunk_audio (List.replicate 1000 0) 320 = Except.ok cs ∧
      cs.flatten = List.replicate 1000 0 ∧
      (∀ c ∈ cs, c.length ≤ (320 : Int).toNat) ∧
      (∀ i, i + 1 < cs.length → (cs.getD i []).length = (320 : Int).toNat) ∧
      (chunk_audio (List.replicate 1000 0) 320).map (fun l => l.map List.length) =
        Except.ok [320, 320, 320, 40]) :=
  ⟨by decide, chunk_audio_spec (List.replicate 1000 0) 320 (by decide)⟩

/-- Each 16-bit sample serializes to exactly two bytes. -/
theorem int16ToLEBytes_length (s : Int) : (int16ToLEBytes s).length = 2 := rfl

/-- audioop.ulaw2lin doubles the byte count. -/
theorem ulaw2lin_length (m : List Nat) : (ulaw2lin m).length = 2 * m.length := by
  unfold ulaw2lin
  induction m with
  | nil => rfl
  | cons b rest ih =>
    simp only [List.map_cons, List.flatMap_cons, List.length_append,
      int16ToLEBytes_length, List.length_cons]
    omega

/-- C4 counterexample: decoding the base64 encoding of 160 bytes of
mu-law silence does not produce 640 bytes of PCM.  The resampler holds
one trailing sample back in its interpolation state on a fresh call, so
the 8k-to-16k step yields 319 samples, not 320. -/
theorem decode_inbound_length_counterexample :
    ¬ (decode_twilio_audio (base64_of (List.replicate 160 255))).map List.length =
      some 640 := by
  intro hcontra
  have h638 : (decode_twilio_audio (base64_of (List.replicate 160 255))).map
      List.length = some 638 := by rfl
  rw [h638] at hcontra
  exact absurd (Option.some.inj hcontra) (by decide)

/-- C4 (amended): mu-law to PCM doubles the byte count in general, and
decoding the base64 encoding of 160 bytes of mu-law silence returns PCM
of length 638 bytes: 160 bytes become 320 bytes of 8kHz PCM, and the
8000-to-16000 resample with fresh interpolation state emits 2n-1 = 319
samples for n input samples, hence 638 bytes. -/
theorem decode_inbound_length_spec :
    (∀ m : List Nat, (mulaw_to_pcm m).length = 2 * m.length) ∧
    (decode_twilio_audio (base64_of (List.replicate 160 255))).map List.length =
      some 638 := by
  constructor
  · intro m; exact ulaw2lin_length m
  · rfl

/-- C10: once a session's closed flag is true, the receive iterator
terminates before dequeuing anything: it yields no events and leaves the
session (including any events still queued) untouched, for any number of
observed loop iterations. -/
theorem receive_closed_spec (fuel : Nat) (s : TwilioVoiceSession)
    (h : s.closed = true) :
    receiveYields fuel s = ([], s) := by
  cases fuel <;> simp [receiveYields, h]

/-- Witness for C10: a closed session with an event still queued yields
nothing and keeps its queue. -/
theorem receive_closed_spec_witness :
    receiveYields 5 { queue := [NEvent.turn_complete], session := none, closed := true } =
      ([], { queue := [NEvent.turn_complete], session := none, closed := true }) ∧
    ({ queue := [NEvent.turn_complete], session := none, closed := true } :
      TwilioVoiceSession).queue ≠ [] :=
  ⟨receive_closed_spec 5 _ rfl, by simp⟩

/-- An element picked by getLast? is a member of the list. -/
theorem getLast?_mem_of_eq {α : Type} {l : List α} {a : α}
    (h : l.getLast? = some a) : a ∈ l := by
  have hx : a ∈ l.getLast? := Option.mem_def.mpr h
  obtain ⟨hne, rfl⟩ := List.mem_getLast?_eq_getLast hx
  exact List.getLast_mem hne

/-- The handle after one receive-loop step depends only on the held
handle and the message's usable token. -/
theorem processResponse_fst (h : Option String) (q : List NEvent)
    (r : LiveServerMessage) :
    (processResponse h q r).1 =
      match validToken r with
      | some t => some t
      | none => h := by
  unfold processResponse validToken updateHandle
  cases hu : r.session_resumption_update with
  | none => rfl
  | some u =>
    dsimp only
    by_cases hg : u.resumable = true ∧ truthyStr u.new_handle = true
    · rw [if_pos hg, if_pos hg]
      cases hn : u.new_handle with
      | none => rw [hn] at hg; simp [truthyStr] at hg
      | some s => rfl
    · rw [if_neg hg, if_neg hg]

/-- The receive loop leaves the handle at the last usable token of the
processed messages, or at the initial handle when no message carried
one. -/
theorem processResponses_fst (h : Option String) (q : List NEvent)
    (msgs : List LiveServerMessage) :
    (processResponses h q msgs).1 =
      match (msgs.filterMap validToken).getLast? with
      | some t => some t
      | none => h := by
  induction msgs using List.reverseRecOn with
  | nil => rfl
  | append_singleton l m ih =>
    unfold processResponses at ih ⊢
    rw [List.foldl_append, List.foldl_cons, List.foldl_nil, processResponse_fst,
      List.filterMap_append]
    cases hv : validToken m with
    | some t =>
      have hm : List.filterMap validToken [m] = [t] := by
        simp [List.filterMap_cons, hv]
      rw [hm, List.getLast?_concat]
    | none =>
      have hm : List.filterMap validToken [m] = [] := by
        simp [List.filterMap_cons, hv]
      rw [hm, List.append_nil, ih]

/-- A usable token is never the empty string. -/
theorem validToken_ne_empty (r : LiveServerMessage) (t : String)
    (h : validToken r = some t) : t ≠ "" := by
  unfold validToken at h
  cases hu : r.session_resumption_update with
  | none => rw [hu] at h; exact absurd h (by simp)
  | some u =>
    rw [hu] at h
    dsimp only at h
    by_cases hg : u.resumable = true ∧ truthyStr u.new_handle = true
    · rw [if_pos hg] at h
      cases hn : u.new_handle with
      | none => rw [hn] at h; exact absurd h (by simp)
      | some s =>
        rw [hn] at h
        have h2 := hg.2
        rw [hn] at h2
        have hne : s ≠ "" := by simpa [truthyStr] using h2
        obtain rfl := Option.some.inj h
        exact hne
    · rw [if_neg hg] at h
      exact absurd h (by simp)

/-- C7: after processing any sequence of backend messages the held
resumption handle is the token of the most recent message carrying a
usable token (resumable with nonempty handle), or the previously held
handle when none did; the next connection config carries exactly the
held handle; the handle never becomes the empty token, and once a token
is held the handle never reverts to empty or none. -/
theorem resumption_token_spec (h0 : Option String) (q : List NEvent)
    (msgs : List LiveServerMessage) :
    ((processResponses h0 q msgs).1 =
      match (msgs.filterMap validToken).getLast? with
      | some t => some t
      | none => h0) ∧
    (∀ st : RunState, (nextConnectConfig st).session_resumption_handle =
      st.resumption_handle) ∧
    (h0 ≠ some "" → (processResponses h0 q msgs).1 ≠ some "") ∧
    (h0 ≠ none → (processResponses h0 q msgs).1 ≠ none) := by
  refine ⟨processResponses_fst h0 q msgs, fun st => rfl, ?_, ?_⟩
  · intro h0ne
    rw [processResponses_fst]
    cases hl : (msgs.filterMap validToken).getLast? with
    | none => exact h0ne
    | some t =>
      have ht : t ∈ msgs.filterMap validToken := getLast?_mem_of_eq hl
      rw [List.mem_filterMap] at ht
      obtain ⟨r, _, hr⟩ := ht
      have hne := validToken_ne_empty r t hr
      simp [hne]
  · intro h0ne
    rw [processResponses_fst]
    cases hl : (msgs.filterMap validToken).getLast? with
    | none => exact h0ne
    | some t => simp

/-- Witness for C7: a held token is overwritten by a later usable token
and the next config carries it. -/
theorem resumption_token_spec_witness :
    (processResponses (some "tokA") []
      [{ session_resumption_update := some { resumable := true, new_handle := some "tokB" },
         go_away := none, server_content := none }]).1 = some "tokB" ∧
    (nextConnectConfig { resumption_handle := some "tokB" }).session_resumption_handle =
      some "tokB" ∧
    (processResponses (some "tokA") []
      [{ session_resumption_update := some { resumable := true, new_handle := some "tokB" },
         go_away := none, server_content := none }]).1 ≠ some "" ∧
    (processResponses (some "tokA") []
      [{ session_resumption_update := some { resumable := true, new_handle := some "tokB" },
         go_away := none, server_content := none }]).1 ≠ none :=
  ⟨(resumption_token_spec (some "tokA") [] _).1,
   (resumption_token_spec (some "tokA") [] []).2.1 _,
   (resumption_token_spec (some "tokA") [] _).2.2.1 (by simp),
   (resumption_token_spec (some "tokA") [] _).2.2.2 (by simp)⟩

/-- Lookup after an overwriting insert finds the inserted value. -/
theorem lookupA_insertA_self {β : Type} (l : List (String × β)) (k : String) (v : β) :
    lookupA (insertA l k v) k = some v := by
  simp [insertA, lookupA]

/-- Lookup after removing a key finds nothing for that key. -/
theorem lookupA_eraseA_self {β : Type} (l : List (String × β)) (k : String) :
    lookupA (eraseA l k) k = none := by
  induction l with
  | nil => rfl
  | cons p rest ih =>
    unfold eraseA
    by_cases h : p.1 = k
    · rw [if_pos h]; exact ih
    · rw [if_neg h]
      unfold lookupA
      rw [if_neg h]
      exact ih

/-- One run-loop iteration never touches the closed flag. -/
theorem runIteration_closed (st : RunState) (out : IterOutcome) :
    (runIteration st out).1.live_session.closed = st.live_session.closed := by
  cases out with
  | cancelledAtConnect => rfl
  | cancelledInReceive p => rfl
  | connectError => by_cases h : st.task_registered <;> simp [runIteration, h]
  | receiveError p => by_cases h : st.task_registered <;>
      simp [runIteration, h, applyMessages, connectOk]
  | cleanClose p => rfl

/-- The run loop never resets a closed flag that is already true. -/
theorem runLoop_closed_mono (st : RunState) (outs : List IterOutcome)
    (h : st.live_session.closed = true) :
    (runLoop st outs).1.live_session.closed = true := by
  induction outs generalizing st with
  | nil => exact h
  | cons out rest ih =>
    unfold runLoop
    rcases hr : runIteration st out with ⟨st1, d⟩
    have hcl : st1.live_session.closed = true := by
      have hiter := runIteration_closed st out
      rw [hr] at hiter
      rw [← h]
      exact hiter
    cases d with
    | none => simp
    | some q => exact ih st1 hcl

/-- When the run loop breaks, the closed write after the loop has run. -/
theorem runLoop_break_closed (st : RunState) (outs : List IterOutcome)
    (h : (runLoop st outs).2 = true) :
    (runLoop st outs).1.live_session.closed = true := by
  induction outs generalizing st with
  | nil => exact absurd h (by simp [runLoop])
  | cons out rest ih =>
    unfold runLoop at h ⊢
    rcases hr : runIteration st out with ⟨st1, d⟩
    rw [hr] at h
    cases d with
    | none => simp
    | some q => exact ih st1 h

/-- C2 counterexample: _cleanup also writes the session's closed flag.
Tearing down a registered session with a live run task performs two
closed writes, the run loop's exit write and _cleanup's own write, so
the cancellation exit path of the loop is not the only writer and the
flag is not written exactly once. -/
theorem closed_writer_counterexample :
    (cleanup { active_sessions := [("X", {})], ready_events := [("X", ())],
               run_tasks := [("X", {})] } "X").writes =
      [ClosedWriter.runExit, ClosedWriter.cleanup] ∧
    ClosedWriter.cleanup ∈
      (cleanup { active_sessions := [("X", {})], ready_events := [("X", ())],
                 run_tasks := [("X", {})] } "X").writes ∧
    (cleanup { active_sessions := [("X", {})], ready_events := [("X", ())],
               run_tasks := [("X", {})] } "X").writes.length = 2 := by
  refine ⟨rfl, ?_, rfl⟩
  show ClosedWriter.cleanup ∈ [ClosedWriter.runExit, ClosedWriter.cleanup]
  simp

/-- C2 (amended): the closed flag is monotonic (never reset once true,
and set whenever the loop exits), but it is written both by the run
loop's exit path and by _cleanup: _cleanup writes it exactly when a
session is registered under the sid, so in an end_session teardown it is
written twice, not exactly once. -/
theorem closed_flag_spec :
    (∀ (st : RunState) (outs : List IterOutcome),
      st.live_session.closed = true →
        (runLoop st outs).1.live_session.closed = true) ∧
    (∀ (st : RunState) (outs : List IterOutcome),
      (runLoop st outs).2 = true →
        (runLoop st outs).1.live_session.closed = true) ∧
    (∀ (sv : ServiceState) (sid : String) (s : TwilioVoiceSession),
      (cleanup sv sid).poppedSession = some s → s.closed = true) ∧
    (∀ (sv : ServiceState) (sid : String),
      ClosedWriter.cleanup ∈ (cleanup sv sid).writes ↔
        (lookupA sv.active_sessions sid).isSome) := by
  refine ⟨runLoop_closed_mono, runLoop_break_closed, ?_, ?_⟩
  · intro sv sid s h
    cases ht : lookupA sv.run_tasks sid with
    | none =>
      cases ha : lookupA sv.active_sessions sid with
      | none => simp [cleanup, ht, ha] at h
      | some s0 =>
        simp [cleanup, ht, ha] at h
        subst h
        rfl
    | some t =>
      cases hd : t.done with
      | true =>
        cases ha : lookupA sv.active_sessions sid with
        | none => simp [cleanup, ht, hd, ha] at h
        | some s0 =>
          simp [cleanup, ht, hd, ha] at h
          subst h
          rfl
      | false =>
        cases ha : lookupA sv.active_sessions sid with
        | none => simp [cleanup, ht, hd, ha] at h
        | some s0 =>
          simp [cleanup, ht, hd, ha, lookupA_insertA_self] at h
          subst h
          rfl
  · intro sv sid
    cases ht : lookupA sv.run_tasks sid with
    | none =>
      cases ha : lookupA sv.active_sessions sid with
      | none => simp [cleanup, ht, ha]
      | some s0 => simp [cleanup, ht, ha]
    | some t =>
      cases hd : t.done with
      | true =>
        cases ha : lookupA sv.active_sessions sid with
        | none => simp [cleanup, ht, hd, ha]
        | some s0 => simp [cleanup, ht, hd, ha]
      | false =>
        cases ha : lookupA sv.active_sessions sid with
        | none => simp [cleanup, ht, hd, ha]
        | some s0 => simp [cleanup, ht, hd, ha, lookupA_insertA_self]

/-- Witness for C2: the monotone part at a closed session, and the
cleanup write at a registered session. -/
theorem closed_flag_spec_witness :
    (runLoop { live_session := { closed := true } } []).1.live_session.closed = true ∧
    ({ queue := [], session := none, closed := true } : TwilioVoiceSession).closed =
      true :=
  ⟨closed_flag_spec.1 { live_session := { closed := true } } [] rfl,
   closed_flag_spec.2.2.1
     { active_sessions := [("X", {})], ready_events := [], run_tasks := [] } "X"
     { queue := [], session := none, closed := true } rfl⟩

/-- On timeout the creation tail fails with the timeout error, every
registry entry for the sid is removed, the cancelled task was awaited
(the run-exit closed write ran) and the popped session is closed. -/
theorem createAndWait_timeout (stp : ServiceState) (sid : String) :
    (createAndWait stp sid true).result =
      Except.error "Gemini Live session initialization timed out" ∧
    lookupA (createAndWait stp sid true).st.active_sessions sid = none ∧
    lookupA (createAndWait stp sid true).st.run_tasks sid = none ∧
    lookupA (createAndWait stp sid true).st.ready_events sid = none ∧
    (createAndWait stp sid true).timeoutTeardown.map CleanupResult.writes =
      some [ClosedWriter.runExit, ClosedWriter.cleanup] ∧
    (∀ s, ((createAndWait stp sid true).timeoutTeardown.bind
      CleanupResult.poppedSession) = some s → s.closed = true) := by
  refine ⟨rfl, ?_, ?_, ?_, ?_, ?_⟩
  · simp [createAndWait, end_session, cleanup, lookupA_insertA_self,
      lookupA_eraseA_self]
  · simp [createAndWait, end_session, cleanup, lookupA_insertA_self,
      lookupA_eraseA_self]
  · simp [createAndWait, end_session, cleanup, lookupA_insertA_self,
      lookupA_eraseA_self]
  · simp [createAndWait, end_session, cleanup, lookupA_insertA_self,
      lookupA_eraseA_self]
  · intro s h
    simp [createAndWait, end_session, cleanup, lookupA_insertA_self,
      lookupA_eraseA_self] at h
    subst h
    rfl

/-- An error result from the creation tail only arises from the timeout
branch, with the timeout message. -/
theorem createAndWait_error (stp : ServiceState) (sid : String) (tO : Bool)
    (e : String)
    (he : (createAndWait stp sid tO).result = Except.error e) :
    tO = true ∧ e = "Gemini Live session initialization timed out" := by
  cases tO with
  | true =>
    refine ⟨rfl, ?_⟩
    have hr : (createAndWait stp sid true).result =
        Except.error "Gemini Live session initialization timed out" := rfl
    rw [hr] at he
    exact (Except.error.inj he).symm
  | false =>
    have hr : (createAndWait stp sid false).result =
        Except.ok ({} : TwilioVoiceSession) := by
      simp [createAndWait, lookupA_insertA_self]
    rw [hr] at he
    exact Except.noConfusion he

/-- C6: when readiness does not arrive in time on the creation path,
get_or_create_session fails with the readiness-timeout error and first
tears the partial session down completely: session, ready event and task
registry entries for the id are all removed, the cancelled task was
awaited (its run-exit closed write ran before cleanup's own write) and
the popped session is closed; and a timeout is the only error the call
ever surfaces. -/
theorem get_or_create_timeout_spec (st : ServiceState) (sid : String)
    (hstale : ∀ s, lookupA st.active_sessions sid = some s → s.closed = true) :
    ((get_or_create_session st sid true).result =
      Except.error "Gemini Live session initialization timed out") ∧
    lookupA (get_or_create_session st sid true).st.active_sessions sid = none ∧
    lookupA (get_or_create_session st sid true).st.run_tasks sid = none ∧
    lookupA (get_or_create_session st sid true).st.ready_events sid = none ∧
    (get_or_create_session st sid true).timeoutTeardown.map CleanupResult.writes =
      some [ClosedWriter.runExit, ClosedWriter.cleanup] ∧
    (∀ s, ((get_or_create_session st sid true).timeoutTeardown.bind
      CleanupResult.poppedSession) = some s → s.closed = true) ∧
    (∀ (st2 : ServiceState) (sid2 : String) (tO : Bool) (e : String),
      (get_or_create_session st2 sid2 tO).result = Except.error e →
      tO = true ∧ e = "Gemini Live session initialization timed out") := by
  have hmain : ∃ stp, get_or_create_session st sid true = createAndWait stp sid true := by
    unfold get_or_create_session
    cases ha : lookupA st.active_sessions sid with
    | none => exact ⟨st, rfl⟩
    | some s =>
      have hc := hstale s ha
      refine ⟨(cleanup st sid).st, ?_⟩
      simp [hc]
  obtain ⟨stp, heq⟩ := hmain
  rw [heq]
  obtain ⟨h1, h2, h3, h4, h5, h6⟩ := createAndWait_timeout stp sid
  refine ⟨h1, h2, h3, h4, h5, h6, ?_⟩
  intro st2 sid2 tO e he
  unfold get_or_create_session at he
  cases ha : lookupA st2.active_sessions sid2 with
  | some s =>
    rw [ha] at he
    dsimp only at he
    by_cases hc : s.closed = false
    · rw [if_pos hc] at he
      exact Except.noConfusion he
    · rw [if_neg hc] at he
      exact createAndWait_error _ _ _ _ he
  | none =>
    rw [ha] at he
    exact createAndWait_error _ _ _ _ he

/-- Witness for C6: the timeout path from an empty registry. -/
theorem get_or_create_timeout_spec_witness :
    (get_or_create_session {} "X" true).result =
      Except.error "Gemini Live session initialization timed out" :=
  (get_or_create_timeout_spec {} "X" (fun s h => absurd h (by simp [lookupA]))).1

/-- C9 counterexample: both parts of the claim fail on admissible
cooperative schedules in which both callers' synchronous prefixes run
before any creation completes.  Under the interleaved schedule two run
loops are spawned for the same id, refuting single-flight creation; and
under the divergent schedule (A resumes after its own task connects but
before B's task registers) the two callers additionally return
different session objects. -/
theorem single_flight_counterexample :
    ((runSchedule raceInterleavedSchedule).spawned.length = 2 ∧
     (runSchedule raceInterleavedSchedule).spawned.length ≠ 1 ∧
     (runSchedule raceInterleavedSchedule).crA.pc = 2 ∧
     (runSchedule raceInterleavedSchedule).crB.pc = 2) ∧
    ((runSchedule raceDivergentSchedule).spawned.length = 2 ∧
     (runSchedule raceDivergentSchedule).crA.pc = 2 ∧
     (runSchedule raceDivergentSchedule).crB.pc = 2 ∧
     (runSchedule raceDivergentSchedule).crA.ret = some 1 ∧
     (runSchedule raceDivergentSchedule).crB.ret = some 3 ∧
     (runSchedule raceDivergentSchedule).crA.ret ≠
       (runSchedule raceDivergentSchedule).crB.ret) := by decide

/-- C9 (amended): creation is not single-flight and the two callers are
not guaranteed the same object.  A caller that resumes from its
readiness wait returns whatever session is registered at that moment
(proved for every state); which object that is depends on the schedule:
when the first call's spawned task registers before the second call's
check, one loop is spawned and both callers get the same session; when
the second call's check runs before the first task's first slot, two
loops are spawned, and the callers obtain the same object or different
objects according to when each resumes relative to the second task's
registration. -/
theorem single_flight_amended_spec :
    (∀ (st : RaceState) (c : RaceCreator) (e : Nat),
      c.pc = 1 → c.waitingOn = some e → e ∈ st.eventsSet →
        (creatorStep st c).2.ret = st.active ∧ (creatorStep st c).2.pc = 2) ∧
    ((runSchedule raceSequencedSchedule).spawned.length = 1 ∧
     (runSchedule raceSequencedSchedule).crA.pc = 2 ∧
     (runSchedule raceSequencedSchedule).crB.pc = 2 ∧
     (runSchedule raceSequencedSchedule).crA.ret =
       (runSchedule raceSequencedSchedule).crB.ret ∧
     (runSchedule raceSequencedSchedule).crA.ret = some 1) ∧
    ((runSchedule raceInterleavedSchedule).spawned.length = 2 ∧
     (runSchedule raceInterleavedSchedule).crA.ret = some 3 ∧
     (runSchedule raceInterleavedSchedule).crB.ret = some 3) ∧
    ((runSchedule raceDivergentSchedule).spawned.length = 2 ∧
     (runSchedule raceDivergentSchedule).crA.ret = some 1 ∧
     (runSchedule raceDivergentSchedule).crB.ret = some 3) := by
  refine ⟨?_, by decide, by decide, by decide⟩
  intro st c e hpc hw he
  unfold creatorStep
  rw [hpc, hw]
  simp [he]

/-- Witness for C9: a waiting caller whose event has been set resumes
and returns the currently registered session. -/
theorem single_flight_amended_spec_witness :
    (creatorStep { active := some 7, eventsSet := [0] }
      { pc := 1, waitingOn := some 0 }).2.ret = some 7 ∧
    (creatorStep { active := some 7, eventsSet := [0] }
      { pc := 1, waitingOn := some 0 }).2.pc = 2 :=
  single_flight_amended_spec.1 { active := some 7, eventsSet := [0] }
    { pc := 1, waitingOn := some 0 } 0 rfl rfl (by decide)

end CallerAgent
